import Mathlib

/-!
Verification of the rummage web-scraping service.

This file gives a shallow embedding, in Lean 4, of the parts of the
rummage code base (Go) that the specification's claims talk about:

* the URL utility functions of `pkg/utils` (`IsValidURL`, `NormalizeURL`,
  `IsRelativeURL`),
* the crawler helpers of `pkg/crawler` (`isBackwardLink`,
  `shouldProcessURL`), the sitemap-candidate generation and the URL
  accumulation loops of `Map` (`pkg/crawler/map.go`),
* the markdown post-processing of `pkg/scraper`
  (`removeLineNumbersFromCodeBlocks` and friends),
* the scrape entry points (`pkg/scraper` `scrape`, `pkg/service` `Scrape`),
* the batch result collection of `pkg/service/batch.go` (`collectResults`),
* the job-store operations of `pkg/storage`
  (`CreateBatchJob`, `UpdateBatchJob`, `CreateCrawlJob`, `UpdateCrawlJob`,
  `UpdateCrawlJobStatus`, `CompleteCrawlJob`, `CancelCrawlJob`).

Pure Go functions become Lean functions.  Effectful code is embedded as a
function of an explicit environment: HTTP fetches, the goquery HTML parser
and the html-to-markdown converter are external collaborators, so their
responses are inputs of the embedded functions; everything the repository
itself computes from those responses is embedded directly.  The Redis store
is embedded as explicit state passing over the stored job records (each Go
store operation is GET, mutate, SET of a JSON record; JSON round-tripping of
a record is the identity on the modelled fields, so an operation is a pure
function from the stored record to the new stored record).

Small models of the Go standard library functions the embedded code calls
(`strings.Split`, `strings.Trim`, `strconv.Atoi`, `net/url.Parse`, ...) are
defined first, in the `GoStd` namespace; each is documented with the Go
behaviour it reproduces.  They are written by structural recursion over
character lists so that every embedded function evaluates inside the
kernel.
-/

namespace Rummage

namespace GoStd

/-- ASCII lower-casing of one character (`unicode.ToLower` restricted to
ASCII, which covers every input the claims exercise). -/
def toLowerChar (c : Char) : Char :=
  if 65 ≤ c.toNat ∧ c.toNat ≤ 90 then Char.ofNat (c.toNat + 32) else c

/-- Model of `strings.ToLower` (ASCII range). -/
def toLowerStr (s : String) : String :=
  String.mk (s.data.map toLowerChar)

/-- Whether `pre` is a prefix of `s` (model of `strings.HasPrefix`). -/
def strStarts (s pre : String) : Bool :=
  pre.data.isPrefixOf s.data

/-- Whether `suf` is a suffix of `s` (model of `strings.HasSuffix`). -/
def strEnds (s suf : String) : Bool :=
  suf.data.reverse.isPrefixOf s.data.reverse

/-- Occurrence test for a pattern in a character list. -/
def searchSub (sub : List Char) : List Char → Bool
  | [] => sub.isEmpty
  | c :: rest => sub.isPrefixOf (c :: rest) || searchSub sub rest

/-- Model of `strings.Contains`: `true` iff `sub` occurs in `s`
(`strings.Contains s "" = true`). -/
def containsSub (s sub : String) : Bool :=
  sub.data.isEmpty || searchSub sub.data s.data

/-- Fuelled worker for `goSplit`; the fuel is the length of the unread
input, so it never runs out. -/
def goSplitAux (sep : List Char) : Nat → List Char → List Char → List (List Char)
  | _, [], acc => [acc.reverse]
  | 0, cs, acc => [acc.reverse ++ cs]
  | fuel + 1, c :: rest, acc =>
    if sep.isPrefixOf (c :: rest) then
      acc.reverse :: goSplitAux sep fuel (List.drop sep.length (c :: rest)) []
    else
      goSplitAux sep fuel rest (c :: acc)

/-- Model of `strings.Split` for a non-empty separator: leftmost
non-overlapping matches; always returns at least one part
(`strings.Split "" sep = [""]`). -/
def goSplit (s sep : String) : List String :=
  (goSplitAux sep.data (s.data.length + 1) s.data []).map String.mk

/-- Model of `strings.Join`. -/
def goJoin (parts : List String) (sep : String) : String :=
  match parts with
  | [] => ""
  | p :: rest => rest.foldl (fun acc q => acc ++ sep ++ q) p

/-- Characters of the Go `unicode.IsSpace` class that fit in Latin-1
(space, tab, newline, vertical tab, form feed, carriage return, NEL,
no-break space).  Used by `strings.TrimSpace`. -/
def isUnicodeSpace (c : Char) : Bool :=
  c.toNat = 32 || c.toNat = 9 || c.toNat = 10 || c.toNat = 11 ||
  c.toNat = 12 || c.toNat = 13 || c.toNat = 0x85 || c.toNat = 0xA0

/-- Characters matched by `\s` in the Go `regexp` package:
`[\t\n\f\r ]` (note: no vertical tab). -/
def isRegexSpace (c : Char) : Bool :=
  c.toNat = 9 || c.toNat = 10 || c.toNat = 12 || c.toNat = 13 || c.toNat = 32

/-- Drop characters satisfying `p` from both ends of a character list. -/
def trimCharsBy (p : Char → Bool) (cs : List Char) : List Char :=
  ((cs.dropWhile p).reverse.dropWhile p).reverse

/-- Model of `strings.TrimSpace`. -/
def trimSpace (s : String) : String :=
  String.mk (trimCharsBy isUnicodeSpace s.data)

/-- Model of `strings.Trim(s, "/")`: remove leading and trailing `/`. -/
def trimSlashes (s : String) : String :=
  String.mk (trimCharsBy (fun c => c = '/') s.data)

/-- Model of `strings.TrimPrefix` (leading-match removal). -/
def trimLead (s pre : String) : String :=
  if strStarts s pre then String.mk (s.data.drop pre.data.length) else s

/-- Model of `strings.TrimSuffix`. -/
def trimTrail (s suf : String) : String :=
  if strEnds s suf then String.mk (s.data.take (s.data.length - suf.data.length))
  else s

/-- Model of a successful `strconv.Atoi`: the string is an optional sign
followed by at least one digit, and the value fits in a signed 64-bit
integer. -/
def atoiOk (s : String) : Bool :=
  let cs := s.data
  let signed : Bool × List Char :=
    match cs with
    | '-' :: r => (true, r)
    | '+' :: r => (false, r)
    | r => (false, r)
  let ds := signed.2
  !ds.isEmpty && ds.all Char.isDigit &&
    (let v := ds.foldl (fun a c => a * 10 + (c.toNat - 48)) 0
     if signed.1 then v ≤ 9223372036854775808 else v ≤ 9223372036854775807)

/-- Index of the first occurrence of character `c` in `cs`, if any. -/
def firstIndexChar (cs : List Char) (c : Char) : Option Nat :=
  match cs with
  | [] => none
  | d :: rest =>
    if d = c then some 0
    else match firstIndexChar rest c with
      | some i => some (i + 1)
      | none => none

/-- Index of the last occurrence of character `c` in `s`, if any
(model of `strings.LastIndexByte` for ASCII `c`). -/
def lastIndexChar (s : String) (c : Char) : Option Nat :=
  match firstIndexChar s.data.reverse c with
  | none => none
  | some i => some (s.data.length - 1 - i)

/-- Model of `strings.Cut(s, string(c))`: the part before the first
occurrence of `c`, the part after it, and whether `c` occurred. -/
def cutChar (s : String) (c : Char) : String × String × Bool :=
  match firstIndexChar s.data c with
  | none => (s, "", false)
  | some i => (String.mk (s.data.take i), String.mk (s.data.drop (i + 1)), true)

/-- First `/`-separated segment of a string (for the Go parser's
"first path segment in URL cannot contain colon" check). -/
def firstSegment (s : String) : String :=
  (goSplit s "/").headD ""

/-- Model of a parsed `net/url.URL`.  `opq` models the `Opaque` field;
the `User` and `OmitHost` fields are not modelled (no claim depends on
userinfo serialization). -/
structure GoURL where
  scheme : String := ""
  opq : String := ""
  host : String := ""
  path : String := ""
  rawQuery : String := ""
  fragment : String := ""
deriving DecidableEq, Repr

/-- Worker for `getScheme`: `acc` holds the scheme characters read so far
(reversed), `orig` is the full input (returned when there is no scheme).
Returns `none` exactly on the Go error `missing protocol scheme`
(a `:` before any scheme character). -/
def getSchemeAux (orig : String) : List Char → List Char → Option (String × String)
  | acc, [] =>
    let _ := acc
    some ("", orig)
  | acc, c :: rest =>
    if c = ':' then
      if acc.isEmpty then none
      else some (toLowerStr (String.mk acc.reverse), String.mk rest)
    else if c.isAlpha then getSchemeAux orig (c :: acc) rest
    else if c.isDigit || c = '+' || c = '-' || c = '.' then
      if acc.isEmpty then some ("", orig) else getSchemeAux orig (c :: acc) rest
    else some ("", orig)

/-- Model of `net/url`'s `getScheme`: split `scheme:` off the front of a
URL.  The scheme must start with a letter and contain only letters,
digits, `+`, `-`, `.`; it is lower-cased.  A string with no valid scheme
is returned whole with an empty scheme. -/
def getScheme (s : String) : Option (String × String) :=
  getSchemeAux s [] s.data

/-- Model of `net/url`'s `validOptionalPort`: empty, or `:` followed by
only digits. -/
def validOptionalPort (p : String) : Bool :=
  p.data.isEmpty ||
    (strStarts p ":" && (p.data.drop 1).all Char.isDigit)

/-- Characters legal in a host per `net/url`'s `shouldEscape` with mode
`encodeHost`: alphanumerics, `-._~`, the sub-delims, `:[]<>"`, and any
non-ASCII character. -/
def legalHostChar (c : Char) : Bool :=
  c.isAlphanum || c = '-' || c = '_' || c = '.' || c = '~' ||
  c = '!' || c = '$' || c = '&' || c.toNat = 39 || c = '(' || c = ')' ||
  c = '*' || c = '+' || c = ',' || c = ';' || c = '=' || c = ':' ||
  c = '[' || c = ']' || c = '<' || c = '>' || c = '"' || c.toNat ≥ 128

/-- Model of `net/url`'s `parseHost`: validates the optional port and the
host characters.  Percent-decoding is not modelled: a `%` is accepted
verbatim (no claim exercises percent-encoded hosts). -/
def parseHost (host : String) : Option String :=
  let charsOk : Bool := host.data.all (fun c => legalHostChar c || c = '%')
  if strStarts host "[" then
    match lastIndexChar host ']' with
    | none => none
    | some i =>
      if validOptionalPort (String.mk (host.data.drop (i + 1))) && charsOk then
        some host
      else none
  else
    match lastIndexChar host ':' with
    | some i =>
      if validOptionalPort (String.mk (host.data.drop i)) && charsOk then some host
      else none
    | none => if charsOk then some host else none

/-- Model of `net/url`'s `parseAuthority` restricted to the host result:
the host is the part after the last `@` (userinfo validation is not
modelled; no claim exercises userinfo). -/
def parseAuthority (authority : String) : Option String :=
  let host :=
    match lastIndexChar authority '@' with
    | none => authority
    | some i => String.mk (authority.data.drop (i + 1))
  parseHost host

/-- Model of `net/url.Parse` (with `viaRequest = false`): split fragment,
scheme and query, then parse the authority when the remainder starts with
`//`; a non-rooted remainder with a scheme becomes the Opaque part.
Returns `none` on the errors the Go parser reports for the modelled
inputs: control characters, a `:` before any scheme character, a colon in
the first path segment of a scheme-less URL, a bad port, or an illegal
host character.  Percent-escape validation and `ForceQuery` are not
modelled. -/
def parseGoURL (rawURL : String) : Option GoURL :=
  if rawURL.data.any (fun c => c.toNat < 32 || c.toNat = 127) then none
  else
    let cutF := cutChar rawURL '#'
    let frag := cutF.2.1
    match getScheme cutF.1 with
    | none => none
    | some (scheme, rest0) =>
      let cutQ := cutChar rest0 '?'
      let rest1 := cutQ.1
      let query := cutQ.2.1
      if ¬ strStarts rest1 "/" ∧ scheme ≠ "" then
        some { scheme := scheme, opq := rest1, rawQuery := query, fragment := frag }
      else if ¬ strStarts rest1 "/" ∧ scheme = "" ∧
          containsSub (firstSegment rest1) ":" then
        none
      else if (scheme ≠ "" ∨ ¬ strStarts rest1 "///") ∧ strStarts rest1 "//" then
        let after := String.mk (rest1.data.drop 2)
        let cutP := cutChar after '/'
        let authority := cutP.1
        let pathStr := if cutP.2.2 then "/" ++ cutP.2.1 else ""
        match parseAuthority authority with
        | none => none
        | some host =>
          some { scheme := scheme, host := host, path := pathStr,
                 rawQuery := query, fragment := frag }
      else
        some { scheme := scheme, host := "", path := rest1,
               rawQuery := query, fragment := frag }

/-- Model of `net/url.URL.String` for URLs without userinfo:
`scheme:`, then the Opaque part, or `//host` (when a host or a path with a
scheme or host is present) followed by the path, query and fragment. -/
def urlString (u : GoURL) : String :=
  let b0 := if u.scheme ≠ "" then u.scheme ++ ":" else ""
  let b1 :=
    if u.opq ≠ "" then b0 ++ u.opq
    else
      let b := if u.scheme ≠ "" ∨ u.host ≠ "" then
                 (if u.host ≠ "" ∨ u.path ≠ "" then b0 ++ "//" else b0) ++ u.host
               else b0
      let b := if u.path ≠ "" ∧ ¬ strStarts u.path "/" ∧ u.host ≠ "" then b ++ "/"
               else b
      let b := if b = "" ∧ containsSub (firstSegment u.path) ":" then b ++ "./" else b
      b ++ u.path
  let b2 := if u.rawQuery ≠ "" then b1 ++ "?" ++ u.rawQuery else b1
  if u.fragment ≠ "" then b2 ++ "#" ++ u.fragment else b2

/-- Model of `net/url.URL.IsAbs`. -/
def isAbs (u : GoURL) : Bool := u.scheme ≠ ""

/-- Dot-segment removal step of `net/url`'s `resolvePath`. -/
def resolveDots (dst : List String) (elem : String) : List String :=
  if elem = "." then dst
  else if elem = ".." then dst.dropLast
  else dst ++ [elem]

/-- Model of `net/url`'s `resolvePath`: merge `ref` onto `base` per
RFC 3986 §5.3, then remove `.` and `..` segments. -/
def resolvePath (base ref : String) : String :=
  let full :=
    if ref = "" then base
    else if ¬ strStarts ref "/" then
      match lastIndexChar base '/' with
      | some i => String.mk (base.data.take (i + 1)) ++ ref
      | none => ref
    else ref
  if full = "" then ""
  else
    let src := goSplit full "/"
    let dst := src.foldl resolveDots []
    let dst := if src.getLast? = some "." ∨ src.getLast? = some ".." then dst ++ [""]
               else dst
    let joined := goJoin dst "/"
    "/" ++ (if strStarts joined "/" then String.mk (joined.data.drop 1) else joined)

/-- Model of `net/url.URL.ResolveReference` (userinfo not modelled). -/
def resolveReference (u ref : GoURL) : GoURL :=
  let url := if ref.scheme = "" then { ref with scheme := u.scheme } else ref
  if ref.scheme ≠ "" ∨ ref.host ≠ "" then
    { url with path := resolvePath ref.path "" }
  else if ref.opq ≠ "" then url
  else
    let url :=
      if ref.path = "" ∧ ref.rawQuery = "" then
        let url := { url with rawQuery := u.rawQuery }
        if ref.fragment = "" then { url with fragment := u.fragment } else url
      else url
    { url with host := u.host, path := resolvePath u.path ref.path }

end GoStd

namespace Utils

open GoStd

/-- Embedding of `pkg/utils` `IsValidURL` (src/unnamed/part_018, lines
11-20): parse the URL, then require a non-empty scheme and a non-empty
host.  Note: any scheme is accepted, not only `http`/`https`. -/
def IsValidURL (rawURL : String) : Bool :=
  match parseGoURL rawURL with
  | none => false
  | some u => u.scheme ≠ "" && u.host ≠ ""

/-- The URL-validity predicate as the specification words it
(`IsValidAbsoluteURL`): the string parses, the scheme is `http` or
`https`, and the host is non-empty.  Stated for comparison with the
source's `IsValidURL`. -/
def IsValidAbsoluteURLSpec (rawURL : String) : Bool :=
  match parseGoURL rawURL with
  | none => false
  | some u => (u.scheme == "http" || u.scheme == "https") && u.host ≠ ""

/-- Embedding of `pkg/utils` `NormalizeURL`: drop the fragment, default
the scheme to `http`, trim a trailing slash from the path; return the
input unchanged when it does not parse or has no host and no dot. -/
def NormalizeURL (rawURL : String) : String :=
  match parseGoURL rawURL with
  | none => rawURL
  | some u =>
    if u.host = "" ∧ ¬ containsSub rawURL "." then rawURL
    else
      let u := { u with fragment := "" }
      let u := if u.scheme = "" then { u with scheme := "http" } else u
      let u := { u with path := trimTrail u.path "/" }
      urlString u

/-- Embedding of `pkg/utils` `IsRelativeURL`. -/
def IsRelativeURL (rawURL : String) : Bool :=
  ¬ strStarts rawURL "http://" && ¬ strStarts rawURL "https://"

/-- Embedding of `pkg/utils` `Contains` (string-slice membership). -/
def Contains (slice : List String) (item : String) : Bool :=
  slice.contains item

end Utils

namespace Crawler

open GoStd

/-- Path segmentation as performed by `isBackwardLink`
(`pkg/crawler/crawler.go`, lines 304-321):
`strings.Split(strings.Trim(path, "/"), "/")`.  Note that a root or empty
path yields the single segment `""`. -/
def pathParts (p : String) : List String :=
  goSplit (trimSlashes p) "/"

/-- The index loop of `isBackwardLink`: for each index `i` of the base
segments, report `true` as soon as the link segments are exhausted or
differ at `i`. -/
def divergesFrom : List String → List String → Bool
  | [], _ => false
  | _ :: _, [] => true
  | b :: bs, l :: ls => b != l || divergesFrom bs ls

/-- Embedding of `pkg/crawler` `isBackwardLink`: `true` when the link
path has fewer (trim-split) segments than the base path, or when the
segment lists differ within the base path's length. -/
def isBackwardLink (basePath linkPath : String) : Bool :=
  if (pathParts linkPath).length < (pathParts basePath).length then true
  else divergesFrom (pathParts basePath) (pathParts linkPath)

/-- Embedding of `pkg/crawler` `shouldProcessURL`: with non-empty include
paths the URL string must contain one of them, and it must contain no
exclude path. -/
def shouldProcessURL (urlStr : String) (includePaths excludePaths : List String) : Bool :=
  if includePaths.length > 0 ∧ ¬ includePaths.any (fun p => containsSub urlStr p) then
    false
  else if excludePaths.any (fun p => containsSub urlStr p) then false
  else true

end Crawler

namespace Scraper

open GoStd

/-- Embedding of `pkg/scraper` `isLineNumber`: the trimmed string is a
valid `strconv.Atoi` input. -/
def isLineNumber (s : String) : Bool :=
  atoiOk (trimSpace s)

/-- Embedding of `pkg/scraper` `removeLineNumber`: delete a leading match
of the Go regular expression `^\s*\d+\s+` (the anchored greedy match:
maximal whitespace, at least one digit, at least one whitespace). -/
def removeLineNumber (line : String) : String :=
  let rest1 := line.data.dropWhile isRegexSpace
  let digits := rest1.takeWhile Char.isDigit
  let rest2 := rest1.dropWhile Char.isDigit
  let sp := rest2.takeWhile isRegexSpace
  if !digits.isEmpty && !sp.isEmpty then String.mk (rest2.dropWhile isRegexSpace)
  else line

/-- Loop body of `removeLineNumbersFromCodeBlocks` for one fenced block
(an odd-index part of the ``` split): keep line 0; when line 0 is not a
bare number start copying at line 2 (dropping line 1), otherwise at
line 1; apply `removeLineNumber` to every copied line. -/
def processCodeBlock (part : String) : String :=
  let lines := goSplit part "\n"
  if lines.length > 1 then
    let startIdx := if isLineNumber (lines.headD "") then 1 else 2
    let cleaned := lines.headD "" :: (lines.drop startIdx).map removeLineNumber
    goJoin cleaned "\n"
  else part

/-- Embedding of `pkg/scraper` `removeLineNumbersFromCodeBlocks`
(src/unnamed/part_003, lines 130-161): split on the fence marker, rewrite
the odd-index parts with `processCodeBlock`, and re-join. -/
def removeLineNumbersFromCodeBlocks (markdown : String) : String :=
  let parts := goSplit markdown "```"
  goJoin (parts.enum.map fun p => if p.1 % 2 = 1 then processCodeBlock p.2 else p.2)
    "```"

/-- Embedding of `pkg/model` `ScrapeMetadata` (no error field exists in
this model). -/
structure ScrapeMetadata where
  title : String := ""
  description : String := ""
  language : String := ""
  sourceURL : String := ""
  statusCode : Int := 0
deriving DecidableEq, Repr

/-- Embedding of `pkg/model` `ScrapeResult`; the Go `Metadata` field is a
pointer, hence an `Option`. -/
structure ScrapeResult where
  markdown : String := ""
  html : String := ""
  rawHtml : String := ""
  links : List String := []
  metadata : Option ScrapeMetadata := none
deriving DecidableEq, Repr

/-- Embedding of `pkg/model` `ScrapeRequest` (headers as an association
list). -/
structure ScrapeRequest where
  url : String := ""
  formats : List String := []
  onlyMainContent : Bool := false
  includeTags : List String := []
  excludeTags : List String := []
  headers : List (String × String) := []
  waitFor : Int := 0
  timeout : Int := 0
deriving Repr

/-- Environment view of one goquery document as the scrape code reads it.
The DOM itself lives in the external goquery library, so the values the
repository extracts from it are inputs: the `<title>` text, the two meta
description variants, the `<html lang>` attribute, the `a[href]`
attribute values in document order, the serialization of the cloned
document after the request's content filters (`filteredHtml`), the body
serialization (`bodyHtml`, `none` for a render error) and the main
content match of `utils.ExtractMainContent` (empty when no selector
matched). -/
structure GoqueryDoc where
  title : String := ""
  attrDescription : String := ""
  getMetaDescription : String := ""
  lang : String := ""
  hrefs : List String := []
  filteredHtml : String := ""
  bodyHtml : Option String := none
  mainContent : String := ""

/-- The html-to-markdown converter of the external
`JohannesKaufmann/html-to-markdown` library, as an environment function
(`ConvertString` can fail). -/
structure MdConverter where
  convert : String → Except String String

/-- Outcome of one colly `Visit`: either an HTTP response (in which case
`OnResponse` runs, with `doc` the goquery parse of the body, `none` on a
parse error) or a transport-level failure (in which case `OnError` runs
with the response's status code, 0 when no response exists, and `Visit`
returns the error). -/
inductive FetchOutcome where
  | response (statusCode : Int) (body : String) (doc : Option GoqueryDoc)
  | failure (statusCode : Int) (message : String)

/-- Embedding of `pkg/scraper` `extractLinks` (src/unnamed/part_003,
lines 198-224): skip empty and fragment-only hrefs, resolve relative
hrefs against the request URL, keep only values passing
`utils.IsValidURL`. -/
def extractLinks (reqURL : String) (hrefs : List String) : List String :=
  let baseURL := (parseGoURL reqURL).getD {}
  hrefs.foldl
    (fun links href =>
      if href = "" ∨ strStarts href "#" then links
      else
        let resolved :=
          if Utils.IsRelativeURL href then
            match parseGoURL href with
            | none => none
            | some u => some (urlString (resolveReference baseURL u))
          else some href
        match resolved with
        | none => links
        | some h => if Utils.IsValidURL h then links ++ [h] else links)
    []

/-- Embedding of `pkg/scraper` `extractMarkdown`: convert the filtered
document's HTML and run the `After` hook
(`removeLineNumbersFromCodeBlocks`); a converter error leaves the zero
value because the error is discarded. -/
def extractMarkdown (env : MdConverter) (doc : GoqueryDoc) : String :=
  match env.convert doc.filteredHtml with
  | .ok m => removeLineNumbersFromCodeBlocks m
  | .error _ => ""

/-- Embedding of `pkg/scraper` `scrape` (src/unnamed/part_003, lines
34-103).  On a transport failure `Visit` returns an error and `scrape`
returns `failed to scrape URL: <err>` with no result.  On a response the
metadata is populated and the `for`-loop over the requested formats fills
exactly the requested fields. -/
def scrape (req : ScrapeRequest) (env : MdConverter) (outcome : FetchOutcome) :
    Except String ScrapeResult :=
  match outcome with
  | .failure _ msg => .error ("failed to scrape URL: " ++ msg)
  | .response code body docOpt =>
    match docOpt with
    | none => .ok { metadata := some { sourceURL := req.url, statusCode := code } }
    | some doc =>
      let base : ScrapeResult :=
        { metadata := some { sourceURL := req.url, statusCode := code,
                             title := doc.title, description := doc.attrDescription,
                             language := doc.lang } }
      .ok (req.formats.foldl
        (fun r f =>
          if f = "markdown" then { r with markdown := extractMarkdown env doc }
          else if f = "html" then { r with html := doc.filteredHtml }
          else if f = "rawHtml" then { r with rawHtml := body }
          else if f = "links" then { r with links := extractLinks req.url doc.hrefs }
          else r)
        base)

/-- Embedding of `pkg/scraper` `Service.Scrape` (pkg/scraper/service.go):
validate the URL, default the formats and the timeout, then run
`scrape`. -/
def ServiceScrape (req : ScrapeRequest) (env : MdConverter) (outcome : FetchOutcome) :
    Except String ScrapeResult :=
  if req.url = "" then .error "URL is required"
  else
    let req := if req.formats.isEmpty then { req with formats := ["markdown"] } else req
    let req := if req.timeout ≤ 0 then { req with timeout := 30000 } else req
    scrape req env outcome

end Scraper

namespace Service

open GoStd

/-- Embedding of `pkg/models` `Metadata` (this model has an `Error`
field). -/
structure Metadata where
  title : String := ""
  description : String := ""
  language : String := ""
  sourceURL : String := ""
  statusCode : Int := 0
  error : String := ""
deriving DecidableEq, Repr

/-- Embedding of `pkg/models` `ScrapeData`. -/
structure ScrapeData where
  markdown : String := ""
  html : String := ""
  rawHtml : String := ""
  links : List String := []
  metadata : Metadata := {}
  warning : String := ""
deriving DecidableEq, Repr

/-- Embedding of `pkg/models` `ScrapeResponse`. -/
structure ScrapeResponse where
  success : Bool := true
  data : ScrapeData := {}
deriving DecidableEq, Repr

/-- Embedding of `pkg/models` `ScrapeRequest`. -/
structure ScrapeRequest where
  url : String := ""
  formats : List String := []
  onlyMainContent : Bool := false
  includeTags : List String := []
  excludeTags : List String := []
  headers : List (String × String) := []
  waitFor : Int := 0
  timeout : Int := 0
deriving Repr

/-- Result of the goquery parse in the service scraper: failure carries
the parser's error text. -/
inductive DocParse where
  | failed (msg : String)
  | parsed (doc : Scraper.GoqueryDoc)

/-- Outcome of the service scraper's colly `Visit` (same reading as
`Scraper.FetchOutcome`, with the goquery parse error text kept). -/
inductive FetchOutcome where
  | response (statusCode : Int) (body : String) (doc : DocParse)
  | failure (statusCode : Int) (message : String)

/-- Fuelled worker collapsing every run of three or more newlines to two
(the Go regular expression replacement of CleanMarkdown).  The fuel is
the list length, so it never runs out. -/
def collapseNL : Nat → List Char → List Char
  | 0, cs => cs
  | _, [] => []
  | fuel + 1, c :: rest =>
    if c = '\n' then
      let run := 1 + (rest.takeWhile (fun d => d = '\n')).length
      let rest1 := rest.dropWhile (fun d => d = '\n')
      (if run ≥ 3 then ['\n', '\n'] else List.replicate run '\n') ++
        collapseNL fuel rest1
    else c :: collapseNL fuel rest

/-- Embedding of `pkg/utils` `CleanMarkdown`: collapse newline runs of
three or more to two, drop a title line duplicated by a `# ` heading on
line 2, and trim surrounding whitespace. -/
def CleanMarkdown (input : String) : String :=
  let cleaned := String.mk (collapseNL input.data.length input.data)
  let lines := goSplit cleaned "\n"
  let cleaned :=
    if lines.length > 2 ∧
        strStarts (lines.getD 2 "") "# " ∧
        trimSpace (lines.getD 0 "") = trimSpace (trimLead (lines.getD 2 "") "# ") then
      goJoin (lines.drop 2) "\n"
    else cleaned
  trimSpace cleaned

/-- Embedding of the service `extractHTML` (src/unnamed/part_009): wrap
the main content or the body in the minimal document shell, falling back
to the raw body text. -/
def svcExtractHTML (req : ScrapeRequest) (doc : Scraper.GoqueryDoc)
    (htmlContent : String) : String :=
  let fromBody :=
    match doc.bodyHtml with
    | some h =>
      if h ≠ "" then "<!DOCTYPE html><html>\n\n<body>\n" ++ h ++ "\n</body></html>"
      else htmlContent
    | none => htmlContent
  if req.onlyMainContent then
    if doc.mainContent ≠ "" then
      "<!DOCTYPE html><html>\n\n<body>\n" ++ doc.mainContent ++ "\n\n</body></html>"
    else fromBody
  else fromBody

/-- Embedding of the service `extractMarkdown` (src/unnamed/part_009):
choose the conversion source (main content, body, or raw body text),
convert, and either record a warning (converter error) or store the
cleaned markdown. -/
def svcExtractMarkdown (req : ScrapeRequest) (conv : Scraper.MdConverter)
    (doc : Scraper.GoqueryDoc) (htmlContent : String)
    (resp : ScrapeResponse) : ScrapeResponse :=
  let fromBody :=
    match doc.bodyHtml with
    | some h => if h ≠ "" then h else htmlContent
    | none => htmlContent
  let src :=
    if req.onlyMainContent then
      if doc.mainContent ≠ "" then doc.mainContent else fromBody
    else fromBody
  match conv.convert src with
  | .error e =>
    { resp with data :=
        { resp.data with warning := "Failed to convert HTML to markdown: " ++ e } }
  | .ok m => { resp with data := { resp.data with markdown := CleanMarkdown m } }

/-- Embedding of `ScraperService.processFormats`
(pkg/service/scraper.go, lines 89-109): fill exactly the requested
format fields. -/
def processFormats (req : ScrapeRequest) (conv : Scraper.MdConverter)
    (doc : Scraper.GoqueryDoc) (htmlContent : String)
    (resp : ScrapeResponse) : ScrapeResponse :=
  let resp :=
    if Utils.Contains req.formats "links" then
      { resp with data := { resp.data with links := doc.hrefs } }
    else resp
  let resp :=
    if Utils.Contains req.formats "html" then
      { resp with data := { resp.data with html := svcExtractHTML req doc htmlContent } }
    else resp
  let resp :=
    if Utils.Contains req.formats "rawHtml" then
      { resp with data := { resp.data with rawHtml := htmlContent } }
    else resp
  if Utils.Contains req.formats "markdown" then
    svcExtractMarkdown req conv doc htmlContent resp
  else resp

/-- Embedding of `ScraperService.Scrape` (pkg/service/scraper.go, lines
23-86).  On a transport failure the `OnError` callback records the status
code and the error text on the response's metadata, `Visit` returns the
error, the error text is recorded again, and the response is returned
together with the non-nil error.  On an HTTP response the metadata and
requested formats are filled and the returned error is nil. -/
def Scrape (req : ScrapeRequest) (conv : Scraper.MdConverter)
    (outcome : FetchOutcome) : ScrapeResponse × Option String :=
  let req := if req.timeout = 0 then { req with timeout := 30000 } else req
  let resp : ScrapeResponse :=
    { success := true, data := { metadata := { sourceURL := req.url } } }
  match outcome with
  | .failure code msg =>
    let resp :=
      { resp with
        success := false
        data := { resp.data with metadata :=
          { resp.data.metadata with statusCode := code, error := msg } } }
    let resp :=
      { resp with
        success := false
        data := { resp.data with metadata := { resp.data.metadata with error := msg } } }
    (resp, some msg)
  | .response code body docParse =>
    let resp :=
      { resp with data := { resp.data with metadata :=
          { resp.data.metadata with statusCode := code } } }
    match docParse with
    | .failed e =>
      ({ resp with data := { resp.data with metadata :=
          { resp.data.metadata with error := "Failed to parse HTML: " ++ e } } }, none)
    | .parsed doc =>
      let resp :=
        { resp with data := { resp.data with metadata :=
            { resp.data.metadata with
              title := doc.title
              description := doc.getMetaDescription
              language := doc.lang } } }
      (processFormats req conv doc body resp, none)

end Service

namespace Storage

/-- Embedding of `pkg/model` `CrawlStatus`, the JSON record stored under
`crawl:job:{id}`. -/
structure CrawlStatus where
  status : String := ""
  total : Int := 0
  completed : Int := 0
  expiresAt : String := ""
  next : String := ""
  data : List Scraper.ScrapeResult := []
deriving Repr

/-- Embedding of `pkg/model` `CrawlError`. -/
structure CrawlError where
  id : String := ""
  timestamp : String := ""
  url : String := ""
  error : String := ""
deriving DecidableEq, Repr

/-- Embedding of `pkg/model` `BatchScrapeStatus`, the JSON record stored
under `batch:job:{id}`. -/
structure BatchScrapeStatus where
  status : String := ""
  total : Int := 0
  completed : Int := 0
  expiresAt : String := ""
  data : List Scraper.ScrapeResult := []
deriving Repr

/-- Embedding of `RedisStorage.CreateCrawlJob` (src/unnamed/part_017,
lines 23-43): the freshly stored record.  `expiresAt` stands for
`time.Now().Add(jobExpirationTime)` formatted as RFC 3339. -/
def CreateCrawlJob (expiresAt : String) : CrawlStatus :=
  { status := "pending", total := 0, completed := 0, expiresAt := expiresAt }

/-- Embedding of `RedisStorage.UpdateCrawlJob` (src/unnamed/part_017,
lines 66-95) as a function from the stored record to the new stored
record (GET, mutate, SET; the SET also refreshes the Redis TTL, which is
not part of the record). -/
def UpdateCrawlJob (job : CrawlStatus) (result : Scraper.ScrapeResult) : CrawlStatus :=
  let job :=
    { job with
      completed := job.completed + 1
      data := job.data ++ [result] }
  if job.status = "pending" then { job with status := "scraping" } else job

/-- Embedding of `RedisStorage.UpdateCrawlJobStatus`
(src/unnamed/part_017, lines 98-124): overwrite the status
unconditionally and overwrite the total only when the argument is
positive (the SET also refreshes the Redis TTL). -/
def UpdateCrawlJobStatus (job : CrawlStatus) (status : String) (total : Int) :
    CrawlStatus :=
  let job := { job with status := status }
  if total > 0 then { job with total := total } else job

/-- Embedding of `RedisStorage.CompleteCrawlJob`. -/
def CompleteCrawlJob (job : CrawlStatus) : CrawlStatus :=
  UpdateCrawlJobStatus job "completed" 0

/-- Embedding of `RedisStorage.CancelCrawlJob`. -/
def CancelCrawlJob (job : CrawlStatus) : CrawlStatus :=
  UpdateCrawlJobStatus job "cancelled" 0

/-- Embedding of `RedisStorage.StoreCrawlError` on the stored error list
(`crawl:errors:{id}`): append-only. -/
def StoreCrawlError (errs : List CrawlError) (e : CrawlError) : List CrawlError :=
  errs ++ [e]

/-- Embedding of `RedisStorage.StoreRobotsBlocked` on the stored list
(`crawl:robots:{id}`): append-only. -/
def StoreRobotsBlocked (urls : List String) (url : String) : List String :=
  urls ++ [url]

/-- Embedding of `RedisStorage.CreateBatchJob` (pkg/storage/redis.go,
lines 72-98): status `pending`, total the URL count — except that with a
non-empty invalid-URL list the stored status is `partial`. -/
def CreateBatchJob (urls invalidURLs : List String) (expiresAt : String) :
    BatchScrapeStatus :=
  let job : BatchScrapeStatus :=
    { status := "pending", total := (urls.length : Int), completed := 0,
      expiresAt := expiresAt }
  if invalidURLs.length > 0 then { job with status := "partial" } else job

/-- Embedding of `RedisStorage.UpdateBatchJob` (pkg/storage/redis.go,
lines 121-150). -/
def UpdateBatchJob (job : BatchScrapeStatus) (result : Scraper.ScrapeResult) :
    BatchScrapeStatus :=
  let job :=
    { job with
      completed := job.completed + 1
      data := job.data ++ [result] }
  if job.completed ≥ job.total then { job with status := "completed" } else job

/-- The crawl-job store operations as the repository invokes them.
`updateJobStatusFn` is wired to `UpdateCrawlJobStatus`
(pkg/api/router.go, line 43) and is called only with status `scraping`
or `completed` (`ProcessCrawlJob` and `processCrawlJobOriginal`);
`CancelCrawlJob` is called by the DELETE handler
(`handleCancelCrawl`); `updateJobFn` is wired to `UpdateCrawlJob`. -/
inductive CrawlStoreOp where
  | updateResult (r : Scraper.ScrapeResult)
  | statusScraping (total : Int)
  | statusCompleted (total : Int)
  | completeJob
  | cancelJob

/-- Apply one crawl-job store operation to the stored record. -/
def applyCrawlOp (job : CrawlStatus) : CrawlStoreOp → CrawlStatus
  | .updateResult r => UpdateCrawlJob job r
  | .statusScraping t => UpdateCrawlJobStatus job "scraping" t
  | .statusCompleted t => UpdateCrawlJobStatus job "completed" t
  | .completeJob => CompleteCrawlJob job
  | .cancelJob => CancelCrawlJob job

/-- Run a sequence of crawl-job store operations on a stored record. -/
def runCrawlOps (job : CrawlStatus) (ops : List CrawlStoreOp) : CrawlStatus :=
  ops.foldl applyCrawlOp job

/-- Run a sequence of `UpdateBatchJob` result appends on a stored batch
record (the only batch mutation besides creation). -/
def runBatchUpdates (job : BatchScrapeStatus) (results : List Scraper.ScrapeResult) :
    BatchScrapeStatus :=
  results.foldl UpdateBatchJob job

end Storage

namespace Service

/-- Embedding of `pkg/models` `JobStatus` and its constants. -/
inductive JobStatus where
  | pending
  | processing
  | completed
  | failed
deriving DecidableEq, Repr

/-- Embedding of `pkg/models` `ScrapeError` (the timestamp is an abstract
instant). -/
structure ScrapeError where
  id : String := ""
  timestamp : Int := 0
  url : String := ""
  error : String := ""
deriving DecidableEq, Repr

/-- Embedding of `pkg/models` `BatchScrapeRequest` (webhook modelled as
an optional URL). -/
structure BatchScrapeRequest where
  urls : List String := []
  formats : List String := []
  onlyMainContent : Bool := false
  includeTags : List String := []
  excludeTags : List String := []
  headers : List (String × String) := []
  waitFor : Int := 0
  timeout : Int := 0
  ignoreInvalidURLs : Bool := false
  webhook : Option String := none

/-- Embedding of `pkg/models` `BatchJob` (timestamps abstract). -/
structure BatchJob where
  id : String := ""
  status : JobStatus := .pending
  request : BatchScrapeRequest := {}
  results : List ScrapeData := []
  errors : List ScrapeError := []
  robotsBlocked : List String := []
  invalidURLs : List String := []
  createdAt : Int := 0
  updatedAt : Int := 0
  expiresAt : Int := 0

/-- Embedding of `BatchScraperService.collectResults`
(pkg/service/batch.go, lines 195-233).  The three drained channels are
the three lists, in arrival order; the job receives the lists, a fresh
`updatedAt`, and its terminal status: `failed` when no URL produced a
result and at least one error or robots-blocked URL exists, `completed`
otherwise. -/
def collectResults (job : BatchJob) (results : List ScrapeData)
    (scrapeErrors : List ScrapeError) (robotsBlocked : List String)
    (now : Int) : BatchJob :=
  let job :=
    { job with
      results := results
      errors := scrapeErrors
      robotsBlocked := robotsBlocked
      updatedAt := now }
  if results.length = 0 ∧ (scrapeErrors.length > 0 ∨ robotsBlocked.length > 0) then
    { job with status := JobStatus.failed }
  else
    { job with status := JobStatus.completed }

end Service

namespace GoStd

/-- Index of the first occurrence of `needle` in `hay`, if any (model of
`strings.Index`). -/
def firstIndexSub (hay needle : List Char) : Option Nat :=
  match hay with
  | [] => if needle.isEmpty then some 0 else none
  | _ :: rest =>
    if needle.isPrefixOf hay then some 0
    else match firstIndexSub rest needle with
      | some i => some (i + 1)
      | none => none

end GoStd

namespace Crawler

open GoStd

/-- Embedding of `pkg/model` `MapRequest`. -/
structure MapRequest where
  url : String := ""
  search : String := ""
  ignoreSitemap : Bool := false
  sitemapOnly : Bool := false
  includeSubdomains : Bool := false
  limit : Int := 0
  timeout : Int := 0
  includePaths : List String := []
  excludePaths : List String := []

/-- What one sitemap candidate GET yields after the gzip layer: the XML
unmarshals as a sitemap index with at least one entry, or as a urlset
with at least one entry, or neither (the body is then treated as plain
text).  The Go code tries the three parses in this order, so the
environment records which one applies. -/
inductive SitemapPayload where
  | indexDoc (locs : List String)
  | urlsetDoc (locs : List String)
  | plainDoc (content : String)

/-- Environment of one `Map` run: the robots.txt body (`some` iff the GET
succeeded with status 200 and the body was readable), the response to
each sitemap candidate GET (`none` for an error, a non-200 status, a
gzip error or a read error), and the `a[href]` values the one-hop colly
collector reports, in callback order. -/
structure MapEnv where
  robots : Option String := none
  fetch : String → Option SitemapPayload := fun _ => none
  anchors : List String := []

/-- The mutable accumulation state of `Map`: `discoveredURLs` (ordered)
and `visitedURLs` (a set, modelled as the list of members). -/
structure MapState where
  discovered : List String
  visited : List String

/-- Ingestion of one sitemap `<loc>` (the loop body at
pkg/crawler/map.go, lines 159-172, also lines 355-368): cap check, path
filter, case-insensitive search filter, dedup against `visitedURLs`,
then append. -/
def ingestLoc (req : MapRequest) (st : MapState) (loc : String) : MapState :=
  if (st.discovered.length : Int) < req.limit ∧
      shouldProcessURL loc req.includePaths req.excludePaths then
    if req.search = "" ∨ containsSub (toLowerStr loc) (toLowerStr req.search) then
      if st.visited.contains loc then st
      else { discovered := st.discovered ++ [loc], visited := loc :: st.visited }
    else st
  else st

/-- Ingestion of one plain-text sitemap line (pkg/crawler/map.go, lines
182-203): trim, skip empty lines and `#` comments, keep only lines that
look like absolute http(s) URLs, then ingest as a `<loc>`. -/
def ingestPlainLine (req : MapRequest) (st : MapState) (rawLine : String) : MapState :=
  let line := trimSpace rawLine
  if line = "" ∨ strStarts line "#" then st
  else if strStarts line "http://" ∨ strStarts line "https://" then
    ingestLoc req st line
  else st

/-- Embedding of `processSitemap` (pkg/crawler/map.go, lines 308-403),
with explicit fuel for the recursion through sitemap indexes (the Go
code has no cycle protection, so a cyclic index chain recurses without
bound; every claim proved below holds for every fuel value). -/
def processSitemap (req : MapRequest) (env : MapEnv) :
    Nat → MapState → String → MapState
  | 0, st, _ => st
  | fuel + 1, st, url =>
    match env.fetch url with
    | none => st
    | some (.indexDoc locs) =>
      locs.foldl
        (fun st loc =>
          if (st.discovered.length : Int) ≥ req.limit then st
          else processSitemap req env fuel st loc)
        st
    | some (.urlsetDoc locs) => locs.foldl (ingestLoc req) st
    | some (.plainDoc content) => (goSplit content "\n").foldl (ingestPlainLine req) st

/-- Embedding of the sitemap candidate generation of `Map`
(pkg/crawler/map.go, lines 75-88): three root candidates, then — for a
non-root path — `basePath/sitemap.xml` and `basePath/sitemap` (the Go
code adds only these two under the base path). -/
def sitemapCandidates (baseURL : GoURL) : List String :=
  let root := [baseURL.scheme ++ "://" ++ baseURL.host ++ "/sitemap.xml",
               baseURL.scheme ++ "://" ++ baseURL.host ++ "/sitemap_index.xml",
               baseURL.scheme ++ "://" ++ baseURL.host ++ "/sitemap"]
  if baseURL.path ≠ "" ∧ baseURL.path ≠ "/" then
    let basePath := trimTrail baseURL.path "/"
    root ++ [baseURL.scheme ++ "://" ++ baseURL.host ++ basePath ++ "/sitemap.xml",
             baseURL.scheme ++ "://" ++ baseURL.host ++ basePath ++ "/sitemap"]
  else root

/-- The candidate generation as the specification words it: the same
three root candidates and, for a non-root path, all three of
`sitemap.xml`, `sitemap_index.xml`, `sitemap` under the base path.
Stated for comparison with the source's `sitemapCandidates`. -/
def sitemapCandidatesSpec (baseURL : GoURL) : List String :=
  let root := [baseURL.scheme ++ "://" ++ baseURL.host ++ "/sitemap.xml",
               baseURL.scheme ++ "://" ++ baseURL.host ++ "/sitemap_index.xml",
               baseURL.scheme ++ "://" ++ baseURL.host ++ "/sitemap"]
  if baseURL.path ≠ "" ∧ baseURL.path ≠ "/" then
    let basePath := trimTrail baseURL.path "/"
    root ++ [baseURL.scheme ++ "://" ++ baseURL.host ++ basePath ++ "/sitemap.xml",
             baseURL.scheme ++ "://" ++ baseURL.host ++ basePath ++ "/sitemap_index.xml",
             baseURL.scheme ++ "://" ++ baseURL.host ++ basePath ++ "/sitemap"]
  else root

/-- Capture of one robots.txt line by the Go regular expression
`(?i)Sitemap:\s*(.+)` followed by `strings.TrimSpace` on the capture: the
trimmed remainder after the first case-insensitive `sitemap:`, provided
the remainder is non-empty. -/
def robotsSitemapCapture (line : String) : Option String :=
  match firstIndexSub (toLowerStr line).data "sitemap:".data with
  | none => none
  | some i =>
    let rest := line.data.drop (i + 8)
    if rest.isEmpty then none else some (trimSpace (String.mk rest))

/-- The sitemap URLs harvested from robots.txt (pkg/crawler/map.go,
lines 90-108): nothing when the robots GET failed, otherwise one entry
per matching line, in order. -/
def robotsSitemapURLs : Option String → List String
  | none => []
  | some content => (goSplit content "\n").filterMap robotsSitemapCapture

/-- The full candidate list `Map` iterates over: generated candidates
then robots.txt hints. -/
def mapSitemapCandidateList (baseURL : GoURL) (robots : Option String) : List String :=
  sitemapCandidates baseURL ++ robotsSitemapURLs robots

/-- Filter chain of the `OnHTML("a[href]")` callback of `Map`
(pkg/crawler/map.go, lines 242-293) on an already-resolved link URL:
host filter (unless `includeSubdomains`), path filter, search filter,
dedup (the URL is marked visited before the cap check), then cap-guarded
append. -/
def harvestProcess (req : MapRequest) (baseURL : GoURL) (st : MapState)
    (linkURL : GoURL) : MapState :=
  if ¬ req.includeSubdomains ∧ linkURL.host ≠ baseURL.host then st
  else if ¬ shouldProcessURL (urlString linkURL) req.includePaths req.excludePaths then
    st
  else if req.search ≠ "" ∧
      ¬ containsSub (toLowerStr (urlString linkURL)) (toLowerStr req.search) then st
  else
    let normalizedURL := urlString linkURL
    if st.visited.contains normalizedURL then st
    else
      let st := { st with visited := normalizedURL :: st.visited }
      if (st.discovered.length : Int) < req.limit then
        { st with discovered := st.discovered ++ [normalizedURL] }
      else st

/-- Entry of the `OnHTML` callback: skip empty and fragment hrefs, parse,
resolve relative URLs against the base URL, then run the filter chain. -/
def harvestAnchor (req : MapRequest) (baseURL : GoURL) (st : MapState)
    (link : String) : MapState :=
  if link = "" ∨ strStarts link "#" then st
  else
    match parseGoURL link with
    | none => st
    | some linkURL0 =>
      harvestProcess req baseURL st
        (if isAbs linkURL0 then linkURL0 else resolveReference baseURL linkURL0)

/-- The loop body of the sitemap stage of `Map` (pkg/crawler/map.go,
lines 111-207), for one candidate URL: the `break` on a reached cap
(equivalent per-iteration, since the discovered count never decreases),
the GET (with the gzip layer), then the three parse attempts — index
(recursing through `processSitemap` with a per-sitemap cap check),
urlset, plain text. -/
def sitemapCandidateStep (req : MapRequest) (env : MapEnv) (fuel : Nat)
    (st : MapState) (cand : String) : MapState :=
  if (st.discovered.length : Int) ≥ req.limit then st
  else
    match env.fetch cand with
    | none => st
    | some (.indexDoc locs) =>
      locs.foldl
        (fun st loc =>
          if (st.discovered.length : Int) ≥ req.limit then st
          else processSitemap req env fuel st loc)
        st
    | some (.urlsetDoc locs) => locs.foldl (ingestLoc req) st
    | some (.plainDoc content) => (goSplit content "\n").foldl (ingestPlainLine req) st

/-- The limit defaulting of `Map` (pkg/crawler/map.go, lines 52-54). -/
def mapDefaulted (req0 : MapRequest) : MapRequest :=
  if req0.limit ≤ 0 then { req0 with limit := 5000 } else req0

/-- Embedding of `Service.Map` (pkg/crawler/map.go, lines 45-305).
Validation and defaulting, seeding with `req.url`, the sitemap stage
(skipped under `ignoreSitemap`, with the `sitemapOnly` early return),
then the one-hop HTML harvest.  `none` models the two error returns
(empty URL, unparsable URL). -/
def Map (req0 : MapRequest) (env : MapEnv) (fuel : Nat) : Option (List String) :=
  if req0.url = "" then none
  else
    let req := mapDefaulted req0
    match parseGoURL req.url with
    | none => none
    | some baseURL =>
      let st0 : MapState := { discovered := [req.url], visited := [req.url] }
      let st1 :=
        if ¬ req.ignoreSitemap then
          (mapSitemapCandidateList baseURL env.robots).foldl
            (sitemapCandidateStep req env fuel) st0
        else st0
      if ¬ req.ignoreSitemap ∧ req.sitemapOnly then some st1.discovered
      else some ((env.anchors.foldl (harvestAnchor req baseURL) st1).discovered)

/-- Invariant of the `Map` accumulation state: the discovered list has no
duplicates, every discovered URL is in the visited set, the discovered
count respects the cap, and the seed URL is still the first element. -/
def MapInv (limit : Int) (seedURL : String) (st : MapState) : Prop :=
  st.discovered.Nodup ∧ (∀ u ∈ st.discovered, u ∈ st.visited) ∧
    (st.discovered.length : Int) ≤ limit ∧ st.discovered.head? = some seedURL

end Crawler

/-- Sanity check: the embedded `IsValidURL` agrees with every vector of
`TestIsValidURL` in `pkg/utils/url_test.go`. -/
theorem IsValidURL_test_vectors :
    Utils.IsValidURL "http://example.com" = true ∧
    Utils.IsValidURL "https://example.com/path?query=value" = true ∧
    Utils.IsValidURL "https://example.com:8080/path" = true ∧
    Utils.IsValidURL "example.com" = false ∧
    Utils.IsValidURL "" = false ∧
    Utils.IsValidURL "http://" = false := by
  refine ⟨?_, ?_, ?_, ?_, ?_, ?_⟩ <;> decide

/-- Sanity check: the embedded `NormalizeURL` agrees with every vector of
`TestNormalizeURL` in `pkg/utils/url_test.go`. -/
theorem NormalizeURL_test_vectors :
    Utils.NormalizeURL "https://example.com/path/" = "https://example.com/path" ∧
    Utils.NormalizeURL "https://example.com/path#fragment" = "https://example.com/path" ∧
    Utils.NormalizeURL "example.com" = "http://example.com" ∧
    Utils.NormalizeURL "https://example.com/path?query=value"
      = "https://example.com/path?query=value" ∧
    Utils.NormalizeURL "invalid-url" = "invalid-url" := by
  refine ⟨?_, ?_, ?_, ?_, ?_⟩ <;> decide

namespace Crawler

/-- The divergence loop returns `true` exactly when the base segments are
not a prefix of the link segments. -/
theorem divergesFrom_eq_not_isPrefixOf (bs ls : List String) :
    divergesFrom bs ls = !(bs.isPrefixOf ls) := by
  induction bs generalizing ls with
  | nil => simp [divergesFrom, List.isPrefixOf]
  | cons b bs ih =>
    cases ls with
    | nil => simp [divergesFrom, List.isPrefixOf]
    | cons l ls =>
      simp [divergesFrom, List.isPrefixOf, ih, Bool.not_and, bne]

/-- A list at least as long as `bs` fails to extend `bs` exactly when the
two lists differ at some index below both lengths. -/
theorem not_prefix_characterization (bs ls : List String)
    (hlen : bs.length ≤ ls.length) :
    ¬ (bs <+: ls) ↔ ∃ i, i < bs.length ∧ i < ls.length ∧ bs[i]? ≠ ls[i]? := by
  constructor
  · intro hnp
    by_contra hne
    push_neg at hne
    apply hnp
    rw [List.prefix_iff_eq_take]
    apply List.ext_getElem?
    intro i
    by_cases hi : i < bs.length
    · rw [List.getElem?_take_of_lt hi]
      exact hne i hi (lt_of_lt_of_le hi hlen)
    · push_neg at hi
      rw [List.getElem?_eq_none hi, List.getElem?_eq_none]
      simp only [List.length_take]
      omega
  · rintro ⟨i, hib, hil, hne⟩ hp
    rw [List.prefix_iff_eq_take] at hp
    apply hne
    rw [hp, List.getElem?_take_of_lt hib]

end Crawler

/-- A fold preserves any invariant its step function preserves. -/
theorem foldl_pres {α : Type _} {β : Type _} (P : β → Prop) (f : β → α → β)
    (hf : ∀ b a, P b → P (f b a)) :
    ∀ (xs : List α) (b : β), P b → P (xs.foldl f b) := by
  intro xs
  induction xs with
  | nil => intro b h; exact h
  | cons x xs ih => intro b h; exact ih _ (hf _ _ h)

/-- Claim C3: after all batch workers finish, the terminal status set by
`collectResults` is `failed` iff the results list is empty and the errors
or robots-blocked list is non-empty, and `completed` in every other
case. -/
theorem collectResults_terminal_status (job : Service.BatchJob)
    (results : List Service.ScrapeData) (scrapeErrors : List Service.ScrapeError)
    (robotsBlocked : List String) (now : Int) :
    ((Service.collectResults job results scrapeErrors robotsBlocked now).status =
        Service.JobStatus.failed ↔
      (results = [] ∧ (scrapeErrors ≠ [] ∨ robotsBlocked ≠ []))) ∧
    ((Service.collectResults job results scrapeErrors robotsBlocked now).status =
        Service.JobStatus.completed ↔
      ¬ (results = [] ∧ (scrapeErrors ≠ [] ∨ robotsBlocked ≠ []))) := by
  have hC : (results.length = 0 ∧ (scrapeErrors.length > 0 ∨ robotsBlocked.length > 0)) ↔
      (results = [] ∧ (scrapeErrors ≠ [] ∨ robotsBlocked ≠ [])) := by
    simp [List.length_eq_zero, List.length_pos]
  unfold Service.collectResults
  split
  next h =>
    refine ⟨⟨fun _ => hC.mp h, fun _ => rfl⟩, ⟨fun hcon => ?_, fun hn => absurd (hC.mp h) hn⟩⟩
    exact absurd hcon (by simp)
  next h =>
    refine ⟨⟨fun hcon => ?_, fun hR => absurd (hC.mpr hR) h⟩,
      ⟨fun _ => fun hR => absurd (hC.mpr hR) h, fun _ => rfl⟩⟩
    exact absurd hcon (by simp)

/-- Claim C10: `UpdateCrawlJobStatus` sets the status, changes the total
only when the argument is positive, and leaves the completed counter, the
result data, the expiry timestamp and the next link unchanged;
`CompleteCrawlJob` and `CancelCrawlJob` (total argument 0) preserve the
recorded total. -/
theorem UpdateCrawlJobStatus_frame (job : Storage.CrawlStatus) (s : String) (t : Int) :
    (Storage.UpdateCrawlJobStatus job s t).completed = job.completed ∧
    (Storage.UpdateCrawlJobStatus job s t).data = job.data ∧
    (Storage.UpdateCrawlJobStatus job s t).expiresAt = job.expiresAt ∧
    (Storage.UpdateCrawlJobStatus job s t).next = job.next ∧
    (Storage.UpdateCrawlJobStatus job s t).status = s ∧
    (Storage.UpdateCrawlJobStatus job s t).total = (if t > 0 then t else job.total) ∧
    (Storage.CompleteCrawlJob job).total = job.total ∧
    (Storage.CancelCrawlJob job).total = job.total := by
  unfold Storage.CompleteCrawlJob Storage.CancelCrawlJob Storage.UpdateCrawlJobStatus
  split_ifs <;> simp_all

/-- Claim C4 (amended): `UpdateCrawlJobStatus` overwrites the persisted
status unconditionally — terminal statuses included — while
`UpdateCrawlJob` only ever moves `pending` to `scraping` and otherwise
keeps the stored status. -/
theorem crawl_status_overwrite_semantics (job : Storage.CrawlStatus) (s : String)
    (t : Int) (r : Scraper.ScrapeResult) :
    (Storage.UpdateCrawlJobStatus job s t).status = s ∧
    (Storage.UpdateCrawlJob job r).status =
      (if job.status = "pending" then "scraping" else job.status) := by
  unfold Storage.UpdateCrawlJobStatus Storage.UpdateCrawlJob
  split_ifs <;> simp_all

/-- Claim C4 (counterexample): the operation sequence of a cancelled
crawl whose in-flight processing then finishes — create, mark scraping,
cancel (status becomes `cancelled`), final `UpdateCrawlJobStatus
"completed"` write from `ProcessCrawlJob` — replaces the terminal status
`cancelled` with `completed`. -/
theorem crawl_cancel_then_complete_overwrites :
    (Storage.runCrawlOps (Storage.CreateCrawlJob "2026-01-01T00:00:00Z")
        [.statusScraping 3, .cancelJob]).status = "cancelled" ∧
    (Storage.runCrawlOps (Storage.CreateCrawlJob "2026-01-01T00:00:00Z")
        [.statusScraping 3, .cancelJob, .statusCompleted 3]).status = "completed" ∧
    ("completed" : String) ≠ "cancelled" := by
  refine ⟨by decide, by decide, by decide⟩

/-- One `UpdateBatchJob` either keeps the stored status or sets
`completed`. -/
theorem UpdateBatchJob_status (job : Storage.BatchScrapeStatus)
    (r : Scraper.ScrapeResult) :
    (Storage.UpdateBatchJob job r).status = job.status ∨
    (Storage.UpdateBatchJob job r).status = "completed" := by
  simp only [Storage.UpdateBatchJob]
  split_ifs <;> simp

/-- One crawl store operation keeps the stored status or sets one of
`scraping`, `completed`, `cancelled`. -/
theorem applyCrawlOp_status (job : Storage.CrawlStatus) (op : Storage.CrawlStoreOp) :
    (Storage.applyCrawlOp job op).status = job.status ∨
    (Storage.applyCrawlOp job op).status = "scraping" ∨
    (Storage.applyCrawlOp job op).status = "completed" ∨
    (Storage.applyCrawlOp job op).status = "cancelled" := by
  cases op <;>
    simp only [Storage.applyCrawlOp, Storage.UpdateCrawlJob, Storage.UpdateCrawlJobStatus,
      Storage.CompleteCrawlJob, Storage.CancelCrawlJob] <;>
    split_ifs <;> simp

/-- Claim C5 (amended): every status a job-store operation sequence can
persist lies in {`pending`, `partial`, `processing`, `scraping`,
`completed`, `failed`, `cancelled`} — the specification's set extended by
`partial`, which `CreateBatchJob` stores when invalid URLs are present. -/
theorem job_store_status_set (expB expC : String) (urls invalid : List String)
    (results : List Scraper.ScrapeResult) (ops : List Storage.CrawlStoreOp) :
    (Storage.runBatchUpdates (Storage.CreateBatchJob urls invalid expB) results).status ∈
      (["pending", "partial", "processing", "scraping", "completed", "failed",
        "cancelled"] : List String) ∧
    (Storage.runCrawlOps (Storage.CreateCrawlJob expC) ops).status ∈
      (["pending", "partial", "processing", "scraping", "completed", "failed",
        "cancelled"] : List String) := by
  constructor
  · apply foldl_pres
      (fun job => job.status ∈ (["pending", "partial", "processing", "scraping",
        "completed", "failed", "cancelled"] : List String))
      Storage.UpdateBatchJob
    · intro job r h
      rcases UpdateBatchJob_status job r with he | he <;> rw [he] <;> simp_all
    · unfold Storage.CreateBatchJob
      split_ifs <;> simp
  · apply foldl_pres
      (fun job => job.status ∈ (["pending", "partial", "processing", "scraping",
        "completed", "failed", "cancelled"] : List String))
      Storage.applyCrawlOp
    · intro job op h
      rcases applyCrawlOp_status job op with he | he | he | he
      · rw [he]; exact h
      all_goals rw [he]; simp
    · simp [Storage.CreateCrawlJob]

/-- Claim C5 (counterexample): creating a batch job with a non-empty
invalid-URL list stores the status `partial`, which lies outside the
specification's status set. -/
theorem createBatchJob_invalid_urls_status :
    (Storage.CreateBatchJob ["http://a.test/"] ["not-a-url"]
        "2026-01-01T00:00:00Z").status = "partial" ∧
    "partial" ∉ (["pending", "processing", "scraping", "completed", "failed",
      "cancelled"] : List String) := by
  refine ⟨by decide, by decide⟩

/-- Claim C6 (amended): `IsValidURL` returns `true` iff the string parses
and has a non-empty scheme — any scheme, not only http/https — and a
non-empty host. -/
theorem IsValidURL_characterization (s : String) :
    Utils.IsValidURL s = true ↔
      ∃ u, GoStd.parseGoURL s = some u ∧ u.scheme ≠ "" ∧ u.host ≠ "" := by
  unfold Utils.IsValidURL
  cases h : GoStd.parseGoURL s with
  | none => simp
  | some u => simp [Bool.and_eq_true, decide_eq_true_eq]

/-- Claim C6 (counterexample): `ftp://example.com` parses with the
non-http scheme `ftp` and a non-empty host; `IsValidURL` accepts it while
the specification's predicate (scheme restricted to http/https) rejects
it. -/
theorem IsValidURL_accepts_ftp :
    Utils.IsValidURL "ftp://example.com" = true ∧
    Utils.IsValidAbsoluteURLSpec "ftp://example.com" = false ∧
    GoStd.parseGoURL "ftp://example.com" =
      some { scheme := "ftp", host := "example.com" } := by
  refine ⟨by decide, by decide, by decide⟩

/-- Claim C9: on the markdown `"```go\ncode1\ncode2\n```"` the
post-processing deletes the entire line `code1` — which matches no
line-number token — because the copy loop starts at line 2 whenever the
fence's first line is not a bare number.  The claim (only `^\s*\d+\s+`
tokens are removed, everything else preserved) is the function's
documented intent; the dropped line is the divergence. -/
theorem removeLineNumbers_drops_first_code_line :
    Scraper.removeLineNumbersFromCodeBlocks "```go\ncode1\ncode2\n```"
      = "```go\ncode2\n```" ∧
    GoStd.containsSub "```go\ncode1\ncode2\n```" "code1" = true ∧
    GoStd.containsSub "```go\ncode2\n```" "code1" = false := by
  refine ⟨by decide, by decide, by decide⟩

/-- Claim C8 (amended): the sitemap candidates `Map` probes are, in
order: the three root candidates `sitemap.xml`, `sitemap_index.xml`,
`sitemap`; for a non-root path only the two candidates `sitemap.xml` and
`sitemap` under the trimmed base path; then every robots.txt `Sitemap:`
capture. -/
theorem mapSitemapCandidateList_order (u : GoStd.GoURL) (robots : Option String) :
    Crawler.mapSitemapCandidateList u robots =
      [u.scheme ++ "://" ++ u.host ++ "/sitemap.xml",
       u.scheme ++ "://" ++ u.host ++ "/sitemap_index.xml",
       u.scheme ++ "://" ++ u.host ++ "/sitemap"] ++
      (if u.path ≠ "" ∧ u.path ≠ "/" then
        [u.scheme ++ "://" ++ u.host ++ GoStd.trimTrail u.path "/" ++ "/sitemap.xml",
         u.scheme ++ "://" ++ u.host ++ GoStd.trimTrail u.path "/" ++ "/sitemap"]
      else []) ++
      Crawler.robotsSitemapURLs robots := by
  unfold Crawler.mapSitemapCandidateList Crawler.sitemapCandidates
  split <;> simp

/-- Claim C8 (counterexample): for base URL `http://example.com/docs` the
code generates five candidates — `sitemap_index.xml` is missing under the
base path — while the specification's generation produces six including
`http://example.com/docs/sitemap_index.xml`. -/
theorem sitemap_index_candidate_missing_under_path :
    Crawler.sitemapCandidates { scheme := "http", host := "example.com", path := "/docs" } ≠
      Crawler.sitemapCandidatesSpec { scheme := "http", host := "example.com", path := "/docs" } ∧
    "http://example.com/docs/sitemap_index.xml" ∉
      Crawler.sitemapCandidates { scheme := "http", host := "example.com", path := "/docs" } ∧
    "http://example.com/docs/sitemap_index.xml" ∈
      Crawler.sitemapCandidatesSpec { scheme := "http", host := "example.com", path := "/docs" } := by
  refine ⟨by decide, by decide, by decide⟩

/-- Claim C1 (amended): on a transport-level fetch failure the
`pkg/scraper` `scrape` returns a bare error (`failed to scrape URL: ...`)
with no artifact, while the `pkg/service` `Scrape` returns a response
whose metadata carries the response status code (or 0) and the transport
error message with every format field empty — but returns it together
with a non-nil error. -/
theorem scrape_transport_failure_behaviour (req : Scraper.ScrapeRequest)
    (mreq : Service.ScrapeRequest) (env conv : Scraper.MdConverter)
    (code : Int) (msg : String) :
    Scraper.scrape req env (.failure code msg) =
      .error ("failed to scrape URL: " ++ msg) ∧
    (Service.Scrape mreq conv (.failure code msg)).1.data.metadata.statusCode = code ∧
    (Service.Scrape mreq conv (.failure code msg)).1.data.metadata.error = msg ∧
    (Service.Scrape mreq conv (.failure code msg)).1.data.markdown = "" ∧
    (Service.Scrape mreq conv (.failure code msg)).1.data.html = "" ∧
    (Service.Scrape mreq conv (.failure code msg)).1.data.rawHtml = "" ∧
    (Service.Scrape mreq conv (.failure code msg)).1.data.links = [] ∧
    (Service.Scrape mreq conv (.failure code msg)).1.success = false ∧
    (Service.Scrape mreq conv (.failure code msg)).2 = some msg := by
  refine ⟨rfl, rfl, rfl, rfl, rfl, rfl, rfl, rfl, rfl⟩

/-- Claim C1 (counterexample): a concrete transport failure on which the
`pkg/scraper` `scrape` operation returns a bare error and no
PageArtifact. -/
theorem scrape_transport_failure_is_bare_error :
    Scraper.scrape { url := "http://unreachable.test/" }
        { convert := fun h => .ok h }
        (.failure 0 "Get \"http://unreachable.test/\": dial tcp: connection refused") =
      .error
        "failed to scrape URL: Get \"http://unreachable.test/\": dial tcp: connection refused" := by
  rfl

/-- Claim C7: for every pair of paths, `isBackwardLink` returns `true`
iff the link path has fewer (trim-split) segments than the base path or
the two segment lists differ at some index below both lengths, and it
returns `false` exactly when the base path's segments are a prefix of the
link path's segments. -/
theorem isBackwardLink_segment_characterization (basePath linkPath : String) :
    (Crawler.isBackwardLink basePath linkPath = true ↔
      ((Crawler.pathParts linkPath).length < (Crawler.pathParts basePath).length ∨
        ∃ i, i < (Crawler.pathParts basePath).length ∧
          i < (Crawler.pathParts linkPath).length ∧
          (Crawler.pathParts basePath)[i]? ≠ (Crawler.pathParts linkPath)[i]?)) ∧
    (Crawler.isBackwardLink basePath linkPath = false ↔
      Crawler.pathParts basePath <+: Crawler.pathParts linkPath) := by
  by_cases hlt :
      (Crawler.pathParts linkPath).length < (Crawler.pathParts basePath).length
  · constructor
    · simp [Crawler.isBackwardLink, hlt]
    · simp only [Crawler.isBackwardLink, hlt, if_pos]
      constructor
      · intro h; exact absurd h (by simp)
      · intro hp
        exact absurd hp.length_le (by omega)
  · have hle : (Crawler.pathParts basePath).length ≤
        (Crawler.pathParts linkPath).length := by omega
    have hbl : Crawler.isBackwardLink basePath linkPath =
        !((Crawler.pathParts basePath).isPrefixOf (Crawler.pathParts linkPath)) := by
      simp only [Crawler.isBackwardLink, hlt, if_neg, ite_false]
      exact Crawler.divergesFrom_eq_not_isPrefixOf _ _
    constructor
    · rw [hbl]
      rw [Bool.not_eq_true']
      rw [← Bool.not_eq_true ((Crawler.pathParts basePath).isPrefixOf _)]
      rw [ List.isPrefixOf_iff_prefix]
      rw [Crawler.not_prefix_characterization _ _ hle]
      constructor
      · intro h; exact Or.inr h
      · rintro (h | h)
        · omega
        · exact h
    · rw [hbl]
      rw [Bool.not_eq_false']
      exact List.isPrefixOf_iff_prefix

namespace Crawler

/-- Appending a fresh URL (not yet visited, cap not reached) preserves
the `Map` invariant. -/
theorem MapInv.append {limit : Int} {seedURL : String} {st : MapState} {u : String}
    (h : MapInv limit seedURL st) (hu : u ∉ st.visited)
    (hl : (st.discovered.length : Int) < limit) :
    MapInv limit seedURL
      { discovered := st.discovered ++ [u], visited := u :: st.visited } := by
  obtain ⟨hnd, hsub, _, hhead⟩ := h
  refine ⟨?_, ?_, ?_, ?_⟩
  · rw [List.nodup_append]
    refine ⟨hnd, List.nodup_singleton u, ?_⟩
    intro v hv hv'
    simp only [List.mem_singleton] at hv'
    subst hv'
    exact hu (hsub v hv)
  · intro v hv
    rcases List.mem_append.mp hv with hv | hv
    · exact List.mem_cons_of_mem _ (hsub v hv)
    · simp only [List.mem_singleton] at hv
      subst hv
      exact List.mem_cons_self _ _
  · simp only [List.length_append, List.length_singleton]
    push_cast
    omega
  · rw [List.head?_append]
    rw [hhead]
    rfl

/-- Growing only the visited set preserves the `Map` invariant. -/
theorem MapInv.markVisited {limit : Int} {seedURL : String} {st : MapState}
    (h : MapInv limit seedURL st) (u : String) :
    MapInv limit seedURL { st with visited := u :: st.visited } := by
  obtain ⟨hnd, hsub, hlen, hhead⟩ := h
  exact ⟨hnd, fun v hv => List.mem_cons_of_mem _ (hsub v hv), hlen, hhead⟩

/-- `ingestLoc` preserves the `Map` invariant. -/
theorem ingestLoc_inv (req : MapRequest) (seedURL : String) (st : MapState)
    (loc : String) (h : MapInv req.limit seedURL st) :
    MapInv req.limit seedURL (ingestLoc req st loc) := by
  unfold ingestLoc
  split_ifs with h1 h2 h3
  · exact h
  · exact h.append (by simpa using h3) h1.1
  · exact h
  · exact h

/-- `ingestPlainLine` preserves the `Map` invariant. -/
theorem ingestPlainLine_inv (req : MapRequest) (seedURL : String) (st : MapState)
    (rawLine : String) (h : MapInv req.limit seedURL st) :
    MapInv req.limit seedURL (ingestPlainLine req st rawLine) := by
  simp only [ingestPlainLine]
  split_ifs with h1 h2
  · exact h
  · exact ingestLoc_inv req seedURL st _ h
  · exact h

/-- `processSitemap` preserves the `Map` invariant for every fuel
value. -/
theorem processSitemap_inv (req : MapRequest) (env : MapEnv) (seedURL : String) :
    ∀ (fuel : Nat) (st : MapState) (url : String), MapInv req.limit seedURL st →
      MapInv req.limit seedURL (processSitemap req env fuel st url) := by
  intro fuel
  induction fuel with
  | zero => intro st url h; exact h
  | succ fuel ih =>
    intro st url h
    simp only [processSitemap]
    cases env.fetch url with
    | none => exact h
    | some payload =>
      cases payload with
      | indexDoc locs =>
        refine foldl_pres (MapInv req.limit seedURL) _ ?_ locs st h
        intro st loc hst
        split_ifs with hcap
        · exact hst
        · exact ih st loc hst
      | urlsetDoc locs =>
        exact foldl_pres (MapInv req.limit seedURL) _
          (fun st loc hst => ingestLoc_inv req seedURL st loc hst) locs st h
      | plainDoc content =>
        exact foldl_pres (MapInv req.limit seedURL) _
          (fun st line hst => ingestPlainLine_inv req seedURL st line hst) _ st h

/-- One sitemap-candidate iteration of `Map` preserves the invariant. -/
theorem sitemapCandidateStep_inv (req : MapRequest) (env : MapEnv) (fuel : Nat)
    (seedURL : String) (st : MapState) (cand : String)
    (h : MapInv req.limit seedURL st) :
    MapInv req.limit seedURL (sitemapCandidateStep req env fuel st cand) := by
  unfold sitemapCandidateStep
  split_ifs with h1
  · exact h
  · cases env.fetch cand with
    | none => exact h
    | some payload =>
      cases payload with
      | indexDoc locs =>
        refine foldl_pres (MapInv req.limit seedURL) _ ?_ locs st h
        intro st loc hst
        split_ifs with hcap
        · exact hst
        · exact processSitemap_inv req env seedURL fuel st loc hst
      | urlsetDoc locs =>
        exact foldl_pres (MapInv req.limit seedURL) _
          (fun st loc hst => ingestLoc_inv req seedURL st loc hst) locs st h
      | plainDoc content =>
        exact foldl_pres (MapInv req.limit seedURL) _
          (fun st line hst => ingestPlainLine_inv req seedURL st line hst) _ st h

/-- The filter chain of the anchor callback preserves the invariant. -/
theorem harvestProcess_inv (req : MapRequest) (baseURL : GoStd.GoURL)
    (seedURL : String) (st : MapState) (linkURL : GoStd.GoURL)
    (h : MapInv req.limit seedURL st) :
    MapInv req.limit seedURL (harvestProcess req baseURL st linkURL) := by
  simp only [harvestProcess]
  split_ifs with h1 h2 h3 h4 h5
  · exact h
  · exact h
  · exact h
  · exact h.append (by simpa using h4) h5
  · exact h.markVisited _
  · exact h

/-- The `OnHTML` anchor callback of `Map` preserves the invariant. -/
theorem harvestAnchor_inv (req : MapRequest) (baseURL : GoStd.GoURL)
    (seedURL : String) (st : MapState) (link : String)
    (h : MapInv req.limit seedURL st) :
    MapInv req.limit seedURL (harvestAnchor req baseURL st link) := by
  unfold harvestAnchor
  split_ifs with h1
  · exact h
  · cases GoStd.parseGoURL link with
    | none => exact h
    | some linkURL0 => exact harvestProcess_inv req baseURL seedURL st _ h

end Crawler

/-- Claim C2 (amended): every link list `Map` returns has no duplicates,
has length at most the limit (defaulted to 5000 when non-positive), and
carries the request URL — exactly as given, not normalized — as its first
element.  This holds for every environment (sitemap responses, robots.txt
content, harvested anchors) and every recursion fuel. -/
theorem Map_links_invariants (req : Crawler.MapRequest) (env : Crawler.MapEnv)
    (fuel : Nat) (links : List String)
    (h : Crawler.Map req env fuel = some links) :
    links.Nodup ∧
    (links.length : Int) ≤ (if req.limit ≤ 0 then 5000 else req.limit) ∧
    links.head? = some req.url := by
  by_cases hurl : req.url = ""
  · simp [Crawler.Map, hurl] at h
  · have hu : (Crawler.mapDefaulted req).url = req.url := by
      unfold Crawler.mapDefaulted
      split <;> rfl
    have hl : (Crawler.mapDefaulted req).limit =
        (if req.limit ≤ 0 then 5000 else req.limit) := by
      unfold Crawler.mapDefaulted
      split_ifs <;> rfl
    have hone : (1 : Int) ≤ (Crawler.mapDefaulted req).limit := by
      rw [hl]
      split_ifs <;> omega
    have hinv0 : Crawler.MapInv (Crawler.mapDefaulted req).limit req.url
        { discovered := [req.url], visited := [req.url] } := by
      refine ⟨List.nodup_singleton _, ?_, ?_, rfl⟩
      · intro v hv
        simpa using hv
      · simpa using hone
    simp only [Crawler.Map] at h
    rw [if_neg hurl] at h
    rw [hu] at h
    cases hp : GoStd.parseGoURL req.url with
    | none => rw [hp] at h; simp at h
    | some baseURL =>
      rw [hp] at h
      have hfold : ∀ st : Crawler.MapState,
          Crawler.MapInv (Crawler.mapDefaulted req).limit req.url st →
          Crawler.MapInv (Crawler.mapDefaulted req).limit req.url
            ((Crawler.mapSitemapCandidateList baseURL env.robots).foldl
              (Crawler.sitemapCandidateStep (Crawler.mapDefaulted req) env fuel) st) := by
        intro st hst
        exact foldl_pres _ _
          (fun st c h' =>
            Crawler.sitemapCandidateStep_inv (Crawler.mapDefaulted req) env fuel
              req.url st c h')
          _ st hst
      have hharv : ∀ st : Crawler.MapState,
          Crawler.MapInv (Crawler.mapDefaulted req).limit req.url st →
          Crawler.MapInv (Crawler.mapDefaulted req).limit req.url
            (env.anchors.foldl
              (Crawler.harvestAnchor (Crawler.mapDefaulted req) baseURL) st) := by
        intro st hst
        exact foldl_pres _ _
          (fun st a h' =>
            Crawler.harvestAnchor_inv (Crawler.mapDefaulted req) baseURL req.url st a h')
          _ st hst
      split_ifs at h with c1 c2 c3
      all_goals
        injection h with h
      all_goals
        subst h
      · obtain ⟨ha, hb, hc, hd⟩ := hinv0
        exact ⟨ha, by rw [← hl]; exact hc, hd⟩
      · obtain ⟨ha, hb, hc, hd⟩ := hfold _ hinv0
        exact ⟨ha, by rw [← hl]; exact hc, hd⟩
      · obtain ⟨ha, hb, hc, hd⟩ := hharv _ hinv0
        exact ⟨ha, by rw [← hl]; exact hc, hd⟩
      · obtain ⟨ha, hb, hc, hd⟩ := hharv _ (hfold _ hinv0)
        exact ⟨ha, by rw [← hl]; exact hc, hd⟩

/-- Witness for `Map_links_invariants` at a concrete request (limit 3, no
sitemaps, no anchors): the hypothesis is discharged by evaluation and the
three invariants are read off the theorem. -/
theorem Map_links_invariants_witness :
    Crawler.Map { url := "http://w.test/", limit := 3 } {} 1 =
      some ["http://w.test/"] ∧
    (["http://w.test/"] : List String).Nodup ∧
    ((["http://w.test/"] : List String).length : Int) ≤
      (if (3 : Int) ≤ 0 then 5000 else 3) ∧
    (["http://w.test/"] : List String).head? = some "http://w.test/" := by
  have hmap : Crawler.Map { url := "http://w.test/", limit := 3 } {} 1 =
      some ["http://w.test/"] := by decide
  have hinv := Map_links_invariants { url := "http://w.test/", limit := 3 } {} 1
    ["http://w.test/"] hmap
  exact ⟨hmap, hinv.1, hinv.2.1, hinv.2.2⟩

/-- Claim C2 (counterexample): with seed URL `http://example.com/path/`
(note the trailing slash) and an environment with no sitemaps and no
anchors, the first returned link is the request URL exactly as given,
which differs from its normalization `http://example.com/path`. -/
theorem map_first_link_not_normalized :
    Crawler.Map { url := "http://example.com/path/", limit := 10 } {} 1 =
      some ["http://example.com/path/"] ∧
    Utils.NormalizeURL "http://example.com/path/" = "http://example.com/path" ∧
    ("http://example.com/path/" : String) ≠ "http://example.com/path" := by
  refine ⟨by decide, by decide, by decide⟩

end Rummage
